import Mathlib

/-!
Verification of the pattern-editor core of `source/views/view_pattern_editor.cpp`:
the lexical classifier (`PatternLanguage` language definition), the format-match
scanner (the `EventFileLoaded` handler), and the evaluation orchestrator
(`parsePattern`, `loadPatternFile`, `drawContent`).

The C++ code is shallowly embedded: pure helpers become Lean functions, the
mutable editor/orchestrator state becomes an explicit `EditorState` record, the
foreground frame and background-thread completion become atomic steps of a
request-step relation, and the background thread body becomes an explicit list
of state transformers so that every interleaving point (every prefix of the
body) can be inspected.
-/

/-- Log levels of the pattern-language console (`pl::LogConsole::Level`). -/
inductive LogLevel where
  | Debug
  | Info
  | Warning
  | Error
deriving DecidableEq, Repr

/-- Notifications posted on the event bus that matter to this core. -/
inductive UIEvent where
  | patternChanged
deriving DecidableEq, Repr

/-- An error marker attached to the text editor: line number and message. -/
abbrev ErrorMarker := Nat × String

/-- Outcome of one call of the opaque interpreter service
(`PatternLanguage::executeString` / `getError` / `getConsoleLog`):
an optional pattern-data tree (nodes abstracted to handles), an optional
error, and the console log. -/
structure ExecResult where
  result : Option (List Nat)
  error : Option ErrorMarker
  log : List (LogLevel × String)
deriving Repr

/-- The mutable state of `ViewPatternEditor` together with the shared data it
writes: editor text, the `m_evaluatorRunning` flag, the number of live
background evaluation threads, a counter of evaluations scheduled so far, the
auto-run bookkeeping flags, the project dirty flag, `SharedData::patternData`,
the editor error markers, the console log, events posted synchronously, events
deferred via `View::doLater`, and the owned text copies handed to background
threads. -/
structure EditorState where
  text : String
  running : Bool
  activeRuns : Nat
  scheduled : Nat
  hasUnevaluatedChanges : Bool
  runAutomatically : Bool
  dirty : Bool
  patternData : List Nat
  errorMarkers : List ErrorMarker
  console : List (LogLevel × String)
  events : List UIEvent
  deferred : List UIEvent
  pendingRuns : List String
deriving Repr

/-! ## Format-match scanner (`EventFileLoaded` handler, source lines 104-149) -/

/-- C `isspace` on the default locale: space, tab, newline, vertical tab,
form feed, carriage return. -/
def isCppSpace (c : Char) : Bool :=
  c == ' ' || c == '\t' || c == '\n' || c == '\x0b' || c == '\x0c' || c == '\r'

/-- `std::string::ends_with(char)`: the last character equals `c`. -/
def endsWithChar (v : List Char) (c : Char) : Bool :=
  match v.getLast? with
  | some d => d == c
  | none => false

/-- The `MIME` pragma handler registered at source lines 116-122. It captures
`mimeType` and the `foundCorrectType` flag by reference; the result is the pair
(new `foundCorrectType` value, handler return value). On `value == mimeType`
the flag is set and `true` is returned; otherwise the flag is left alone and
the handler returns `!std::all_of(value, isspace) && !value.ends_with('\n')
&& !value.ends_with('\r')`. -/
def mimeHandler (mimeType : List Char) (found : Bool) (value : List Char) : Bool × Bool :=
  if value = mimeType then (true, true)
  else (found, !(value.all isCppSpace) && !(endsWithChar value '\n') && !(endsWithChar value '\r'))

/-- Modelled from the spec: the preprocessing pass (`pl::Preprocessor`, whose
implementation is not part of this repository's sources) extracts the
`#pragma MIME value` lines of one file in order and invokes the registered
handler on each value, stopping early within this file once the handler
returns false (true = keep scanning, false = stop early); pragmas with other
names go to the default handlers, which are no-ops for this scan. The Bool
threaded through is the captured `foundCorrectType` flag. -/
def preprocessFile (mimeType : List Char) : Bool → List (List Char) → Bool
  | found, [] => found
  | found, v :: rest =>
    match mimeHandler mimeType found v with
    | (found', cont) => if cont then preprocessFile mimeType found' rest else found'

/-- One entry of the scanned patterns directory: its path, whether
`entry.is_regular_file()` holds, whether opening it for reading succeeds
(`File::isValid`), and the `MIME` pragma values its contents declare, in
order. -/
structure ScanEntry where
  path : String
  isRegularFile : Bool
  readable : Bool
  pragmas : List (List Char)
deriving Repr

/-- The scan loop of source lines 127-142: skip entries that are not regular
files, skip files that cannot be opened, preprocess the rest, and record the
entry's path whenever the `foundCorrectType` flag is set afterwards. The flag
is declared once, outside the loop (source line 115), and is never reset
between files, which is why it is threaded through all entries. -/
def scanAux (mimeType : List Char) (found : Bool) : List ScanEntry → List String
  | [] => []
  | e :: rest =>
    if !e.isRegularFile then scanAux mimeType found rest
    else if !e.readable then scanAux mimeType found rest
    else
      let found' := preprocessFile mimeType found e.pragmas
      if found' then e.path :: scanAux mimeType found' rest
      else scanAux mimeType found' rest

/-- The whole format-match scan: `foundCorrectType` starts out false. -/
def findCompatibleScripts (mimeType : List Char) (entries : List ScanEntry) : List String :=
  scanAux mimeType false entries

/-- `GetText().find_first_not_of(" \f\n\r\t\v") == npos` (source line 105):
the buffer consists of whitespace only. -/
def bufferIsBlank (text : List Char) : Bool :=
  text.all (fun c => c == ' ' || c == '\x0c' || c == '\n' || c == '\r' || c == '\t' || c == '\x0b')

/-- The guarded `EventFileLoaded` handler (source lines 104-142): return early
(`none`, candidate list untouched) when the buffer is non-blank; return early
when `ImHexApi::Provider::isValid()` holds (source line 110, as written);
otherwise clear the candidate list and run the scan. -/
def onFileLoaded (text : List Char) (providerValid : Bool) (mimeType : List Char)
    (entries : List ScanEntry) : Option (List String) :=
  if !(bufferIsBlank text) then none
  else if providerValid then none
  else some (findCompatibleScripts mimeType entries)

/-! ## Lexical classifier (`PatternLanguage`, source lines 21-81) -/

/-- Token categories (`TextEditor::PaletteIndex`), restricted to the ones this
language definition produces, plus the `Max` sentinel that `mTokenize` uses to
signal failure and the spec's derived `BuiltinType` category. -/
inductive PaletteIndex where
  | Default
  | Identifier
  | Keyword
  | BuiltinType
  | Number
  | CharLiteral
  | String
  | Comment
  | Preprocessor
  | Max
deriving DecidableEq, Repr

/-- The keyword table filled at source lines 25-29. -/
def keywords : List String :=
  ["using", "struct", "union", "enum", "bitfield", "be", "le", "if", "else",
   "false", "true", "this", "parent", "addressof", "sizeof", "$", "while",
   "fn", "return", "namespace"]

/-- The built-in type names filled at source lines 31-36. -/
def builtInTypes : List String :=
  ["u8", "u16", "u32", "u64", "u128",
   "s8", "s16", "s32", "s64", "s128",
   "float", "double", "char", "char16",
   "bool", "padding", "str"]

/-- The identifier table of source lines 38-42: each built-in type name is
mapped to an identifier whose declaration text is "Built-in type". -/
def builtInTypeTable : List (String × String) :=
  builtInTypes.map (fun nm => (nm, "Built-in type"))

/-- `isascii(c) && isblank(c)`: an ASCII space or horizontal tab
(the skip loop of source lines 47-48). -/
def isBlankAscii (c : Char) : Bool :=
  decide (c.toNat < 128) && (c == ' ' || c == '\t')

/-- A sub-tokenizer: on success it returns the token's characters and the rest
of the input. -/
abbrev SubTok := List Char → Option (List Char × List Char)

/-- ASCII letter or underscore. -/
def isIdentStartChar (c : Char) : Bool :=
  ('a' ≤ c && c ≤ 'z') || ('A' ≤ c && c ≤ 'Z') || c == '_'

/-- ASCII letter, digit or underscore. -/
def isIdentChar (c : Char) : Bool :=
  isIdentStartChar c || ('0' ≤ c && c ≤ '9')

/-- Modelled from the spec: `TokenizeCStyleIdentifier` (defined by the
text-editor widget, not part of this repository's sources): a letter or
underscore followed by alphanumerics or underscores. Returns the token span
and the remaining input. -/
def tokenizeCStyleIdentifier : List Char → Option (List Char × List Char)
  | [] => none
  | c :: cs =>
    if isIdentStartChar c then
      some (c :: cs.takeWhile isIdentChar, cs.dropWhile isIdentChar)
    else none

/-- `langDef.mTokenize` (source lines 44-66), with the three remaining
sub-tokenizers (`TokenizeCStyleNumber`, `TokenizeCStyleCharacterLiteral`,
`TokenizeCStyleString`, all defined by the text-editor widget and not part of
this repository's sources) taken as parameters. On success it returns the
number of leading blank characters skipped, the token span, and the palette
index; `none` models returning false with the `Max` sentinel. -/
def mTokenize (num chrTok strTok : SubTok) (input : List Char) :
    Option (Nat × List Char × PaletteIndex) :=
  let blanks := input.takeWhile isBlankAscii
  let rest := input.dropWhile isBlankAscii
  match rest with
  | [] => some (blanks.length, [], PaletteIndex.Default)
  | _ :: _ =>
    match tokenizeCStyleIdentifier rest with
    | some (tok, _) => some (blanks.length, tok, PaletteIndex.Identifier)
    | none =>
      match num rest with
      | some (tok, _) => some (blanks.length, tok, PaletteIndex.Number)
      | none =>
        match chrTok rest with
        | some (tok, _) => some (blanks.length, tok, PaletteIndex.CharLiteral)
        | none =>
          match strTok rest with
          | some (tok, _) => some (blanks.length, tok, PaletteIndex.String)
          | none => none

/-- Modelled from the spec: the text-editor widget (not part of this
repository's sources) refines a token that `mTokenize` classified as
`Identifier` by consulting `langDef.mKeywords` and `langDef.mIdentifiers`:
a keyword-table member becomes `Keyword`; a member of the identifier table
becomes a known built-in type and carries that table entry's declaration text
as its attached description. The tables themselves are the ones built at
source lines 25-42. -/
def classifyToken (num chrTok strTok : SubTok) (input : List Char) :
    Option (Nat × List Char × PaletteIndex × Option String) :=
  match mTokenize num chrTok strTok input with
  | none => none
  | some (k, tok, cat) =>
    if cat = PaletteIndex.Identifier then
      if keywords.contains (String.mk tok) then
        some (k, tok, PaletteIndex.Keyword, none)
      else
        match builtInTypeTable.lookup (String.mk tok) with
        | some decl => some (k, tok, PaletteIndex.BuiltinType, some decl)
        | none => some (k, tok, PaletteIndex.Identifier, none)
    else some (k, tok, cat, none)

/-! ## Evaluation orchestrator (`parsePattern`, `loadPatternFile`,
`drawContent`, source lines 182-369) -/

/-- `ViewPatternEditor::clearPatternData` (source lines 333-339): release and
clear `SharedData::patternData`. -/
def clearPatternData (s : EditorState) : EditorState :=
  { s with patternData := [] }

/-- The synchronous prefix of `ViewPatternEditor::parsePattern` (source lines
342-347), one instruction per source statement, in source order:
set `m_evaluatorRunning`, clear the pattern data, clear the error markers,
clear the console, post `EventPatternChanged`. -/
def parseSyncInstrs : List (EditorState → EditorState) :=
  [fun s => { s with running := true },
   clearPatternData,
   fun s => { s with errorMarkers := [] },
   fun s => { s with console := [] },
   fun s => { s with events := s.events ++ [UIEvent.patternChanged] }]

/-- Run a list of state transformers in order. -/
def runAll (fs : List (EditorState → EditorState)) (s : EditorState) : EditorState :=
  fs.foldl (fun a f => f a) s

/-- Run only the first `n` transformers: the state visible at interleaving
point `n`. -/
def execSteps (fs : List (EditorState → EditorState)) (n : Nat) (s : EditorState) : EditorState :=
  runAll (fs.take n) s

/-- The synchronous part of `parsePattern`. -/
def parsePatternSync (s : EditorState) : EditorState :=
  runAll parseSyncInstrs s

/-- Spawning the detached background thread (source lines 349 and 367): one
more live run, one more scheduled evaluation, and an owned copy of the buffer
(`buffer = std::string(buffer)`) handed to the thread. No instruction of the
thread body has executed yet. -/
def spawnThread (buffer : String) (s : EditorState) : EditorState :=
  { s with activeRuns := s.activeRuns + 1,
           scheduled := s.scheduled + 1,
           pendingRuns := s.pendingRuns ++ [buffer] }

/-- `ViewPatternEditor::parsePattern` (source lines 341-369) as seen by the
calling thread: the synchronous prefix followed by spawning the thread. -/
def parsePattern (buffer : String) (s : EditorState) : EditorState :=
  spawnThread buffer (parsePatternSync s)

/-- The background thread body (source lines 349-367), one instruction per
source statement, in source order, for a run whose interpreter call produced
`res`: set error markers if an error is present, store the console log, store
the pattern data and defer a `EventPatternChanged` post via `View::doLater`
if a result is present, and set `m_evaluatorRunning` to false last. -/
def bgInstrs (res : ExecResult) : List (EditorState → EditorState) :=
  [fun s =>
     match res.error with
     | some e => { s with errorMarkers := [e] }
     | none => s,
   fun s => { s with console := res.log },
   fun s =>
     match res.result with
     | some t => { s with patternData := t, deferred := s.deferred ++ [UIEvent.patternChanged] }
     | none => s,
   fun s => { s with running := false }]

/-- A background thread running to completion: the whole body, then the thread
itself goes away. -/
def bgComplete (res : ExecResult) (s : EditorState) : EditorState :=
  let s' := runAll (bgInstrs res) s
  { s' with activeRuns := s'.activeRuns - 1 }

/-- `ViewPatternEditor::loadPatternFile` (source lines 309-331): `none` models
`fopen` failing, in which case nothing at all happens; otherwise the file's
contents are read, `parsePattern` is called on them, and the editor text is
set to them. -/
def loadPatternFile (file : Option String) (s : EditorState) : EditorState :=
  match file with
  | none => s
  | some content => { parsePattern content s with text := content }

/-- The evaluate arrow button (source lines 234-243): it sits inside
`ImGui::Disabled(..., m_evaluatorRunning)`, so a press only fires while no
evaluation is running. -/
def tickButton (buttonPressed : Bool) (s : EditorState) : EditorState :=
  if buttonPressed && !s.running then parsePattern s.text s else s

/-- The auto-run checkbox (source lines 245-252): shown only while not
running; toggling it stores the new value and, when it was just switched on,
sets `m_hasUnevaluatedChanges`. `none` models the checkbox not being touched
this frame. -/
def tickCheckbox (setAuto : Option Bool) (s : EditorState) : EditorState :=
  if s.running then s
  else
    match setAuto with
    | none => s
    | some b =>
      let t := { s with runAutomatically := b }
      if b then { t with hasUnevaluatedChanges := true } else t

/-- The text-changed check (source lines 254-257): a text change with auto-run
enabled sets `m_hasUnevaluatedChanges`. -/
def tickTextChanged (textChanged : Bool) (s : EditorState) : EditorState :=
  if textChanged && s.runAutomatically then { s with hasUnevaluatedChanges := true } else s

/-- The auto-evaluation check (source lines 259-264): with unevaluated changes
and no evaluation running, clear the flag, mark the project dirty, and call
`parsePattern` on the current text. -/
def tickAutoEval (s : EditorState) : EditorState :=
  if s.hasUnevaluatedChanges && !s.running then
    parsePattern s.text { s with hasUnevaluatedChanges := false, dirty := true }
  else s

/-- One `ViewPatternEditor::drawContent` frame (source lines 193-270): the
whole body runs only when a provider is valid and available; within it the
button, the checkbox, the text-changed check and the auto-evaluation check
run in source order. -/
def drawContentTick (providerOk : Bool) (setAuto : Option Bool)
    (buttonPressed textChanged : Bool) (s : EditorState) : EditorState :=
  if providerOk then
    tickAutoEval (tickTextChanged textChanged (tickCheckbox setAuto (tickButton buttonPressed s)))
  else s

/-- The evaluation-triggering requests of the claim, plus background-thread
completion, each taken as one atomic step of the interleaving model. -/
inductive Request where
  | frame (providerOk : Bool) (setAuto : Option Bool) (buttonPressed textChanged : Bool)
  | projectLoad (text : String)
  | patternFileLoad (file : Option String)
  | complete (res : ExecResult)

/-- One step. A `projectLoad` is the `EventProjectFileLoad` handler (source
lines 94-97): set the editor text, then `parsePattern` on it, with no guard. A
`complete` step is a live background thread finishing. -/
def step (s : EditorState) (r : Request) : EditorState :=
  match r with
  | .frame p a b t => drawContentTick p a b t s
  | .projectLoad text => parsePattern text { s with text := text }
  | .patternFileLoad file => loadPatternFile file s
  | .complete res => if s.activeRuns = 0 then s else bgComplete res s

/-- Run a sequence of requests. -/
def runRequests (reqs : List Request) (s : EditorState) : EditorState :=
  reqs.foldl step s

/-- The idle initial state: empty editor, nothing running, nothing stored. -/
def initState : EditorState :=
  ⟨"", false, 0, 0, false, false, false, [], [], [], [], [], []⟩

/-- Requests coming from the interactive frame or from thread completion
(the guarded kinds). -/
def frameOrComplete : Request → Bool
  | .frame _ _ _ _ => true
  | .complete _ => true
  | _ => false

/-- `n` successive frames whose only input is an editor text change
(auto-run edits arriving during a long evaluation). -/
def iterTick : Nat → EditorState → EditorState
  | 0, s => s
  | n + 1, s => iterTick n (drawContentTick true none false true s)

/-- A state with auto-run enabled and one evaluation in flight. -/
def runningAutoState : EditorState :=
  { initState with running := true, activeRuns := 1, runAutomatically := true }

/-- An interpreter outcome with no tree, no error and an empty log. -/
def emptyResult : ExecResult :=
  ⟨none, none, []⟩

/-- The concurrency-exclusion invariant the guarded request kinds maintain:
a live background run exists exactly while `running` is set, and never more
than one. -/
def RunInv (s : EditorState) : Prop :=
  (s.running = true ∧ s.activeRuns = 1) ∨ (s.running = false ∧ s.activeRuns = 0)

/-! ## Theorems -/

/-- Looking a name up in a constant-valued table built by `map`. -/
theorem lookup_const_map (l : List String) (nm : String) :
    (l.map (fun n => (n, "Built-in type"))).lookup nm =
      if nm ∈ l then some "Built-in type" else none := by
  induction l with
  | nil => simp
  | cons a rest ih =>
    simp only [List.map_cons, List.lookup]
    cases h : (nm == a) with
    | true =>
      have hna : nm = a := by simpa using h
      simp [hna]
    | false =>
      have hna : ¬nm = a := by simpa using h
      simp [hna, ih]

/-- The built-in-type table lookup succeeds exactly on the built-in type
names, always with the declaration text "Built-in type". -/
theorem builtInTypeTable_lookup (nm : String) :
    builtInTypeTable.lookup nm =
      if nm ∈ builtInTypes then some "Built-in type" else none :=
  lookup_const_map builtInTypes nm

/-- C2: the claim says a directory with a first file declaring `#pragma MIME T`
and a second declaring `#pragma MIME U` (U distinct from T) yields exactly the
first file. In the code the `foundCorrectType` flag is declared outside the
directory loop and never reset between files, so once the first file matches,
every later file is also recorded: the scan returns both files. -/
theorem scan_sticky_match_eval :
    findCompatibleScripts ['t']
      [⟨"a.hexpat", true, true, [['t']]⟩, ⟨"b.hexpat", true, true, [['u']]⟩] =
      ["a.hexpat", "b.hexpat"] := by decide

/-- C3: the claim says the format-match scan runs exactly when the buffer is
blank and a data source is loaded. The code's guard at source line 110 is
inverted (`if (ImHexApi::Provider::isValid()) return;`): with a blank buffer
the scan is skipped when a provider is valid and runs when none is loaded,
at which point line 113 reads the MIME type from the invalid provider. The
non-blank-buffer guard itself behaves as claimed. -/
theorem scan_trigger_guard_eval :
    onFileLoaded [] true ['t'] [⟨"a.hexpat", true, true, [['t']]⟩] = none ∧
    onFileLoaded [] false ['t'] [⟨"a.hexpat", true, true, [['t']]⟩] = some ["a.hexpat"] ∧
    onFileLoaded ['x'] true ['t'] [⟨"a.hexpat", true, true, [['t']]⟩] = none ∧
    onFileLoaded ['x'] false ['t'] [⟨"a.hexpat", true, true, [['t']]⟩] = none := by decide

/-- C4 counterexample: the claim says that, on an exact match with the active
content type, the predicate returns the decisive-stop result (false under the
spec's own convention that true = keep scanning, false = stop). On a match the
handler records the file (flag set to true) but returns true, the
keep-scanning value, not the stop value false. -/
theorem mime_pragma_match_returns_keep :
    (mimeHandler ['t'] false ['t']).1 = true ∧ (mimeHandler ['t'] false ['t']).2 ≠ false := by
  decide

/-- C4 amended: on an exact string match the file is recorded as compatible
(the flag is set) and the predicate returns true, the keep-scanning value; on
a non-match the flag is unchanged and the predicate returns keep-scanning
unless the value is whitespace-only or ends in a newline or carriage return,
in which case it returns the stop result false, without recording the file and
without failing. -/
theorem mime_pragma_predicate_amended (m : List Char) (f : Bool) (v : List Char) :
    (v = m → mimeHandler m f v = (true, true)) ∧
    (v ≠ m →
      (mimeHandler m f v).1 = f ∧
      ((mimeHandler m f v).2 = false ↔
        (v.all isCppSpace = true ∨ endsWithChar v '\n' = true ∨ endsWithChar v '\r' = true))) := by
  refine ⟨fun h => by simp [mimeHandler, h], fun h => ⟨by simp [mimeHandler, h], ?_⟩⟩
  cases hA : v.all isCppSpace <;> cases hB : endsWithChar v '\n' <;>
    cases hC : endsWithChar v '\r' <;> simp [mimeHandler, h, hA, hB, hC]

/-- C4 amended, witness: both branches at concrete inputs. -/
theorem mime_pragma_predicate_amended_witness :
    mimeHandler ['t'] false ['t'] = (true, true) ∧
    (mimeHandler ['t'] false ['u']).1 = false ∧
    ((mimeHandler ['t'] false [' ']).2 = false ↔
      (([' '] : List Char).all isCppSpace = true ∨ endsWithChar [' '] '\n' = true ∨
        endsWithChar [' '] '\r' = true)) :=
  ⟨(mime_pragma_predicate_amended ['t'] false ['t']).1 rfl,
   ((mime_pragma_predicate_amended ['t'] false ['u']).2 (by decide)).1,
   ((mime_pragma_predicate_amended ['t'] false [' ']).2 (by decide)).2⟩

/-- C9: a directory entry that is not a regular file, or a regular file that
cannot be opened for reading, is silently skipped: it contributes nothing to
the candidate list and the scan continues with the remaining entries exactly
as if the entry were absent; an empty directory yields an empty result. -/
theorem scan_skips_unreadable_entries (m : List Char) (found : Bool)
    (e : ScanEntry) (rest : List ScanEntry)
    (h : e.isRegularFile = false ∨ e.readable = false) :
    scanAux m found (e :: rest) = scanAux m found rest ∧
    findCompatibleScripts m [] = [] := by
  refine ⟨?_, rfl⟩
  rcases h with h | h <;> cases hr : e.isRegularFile <;> simp_all [scanAux, hr]

/-- C9 witness: a scan whose first entry is an unreadable regular file behaves
exactly as the scan of the remaining single, valid, non-matching entry, which
yields an empty result. -/
theorem scan_skips_unreadable_entries_witness :
    scanAux ['t'] false
        [⟨"bad.hexpat", true, false, [['t']]⟩, ⟨"good.hexpat", true, true, [['u']]⟩] =
      scanAux ['t'] false [⟨"good.hexpat", true, true, [['u']]⟩] ∧
    findCompatibleScripts ['t'] [] = [] :=
  scan_skips_unreadable_entries ['t'] false ⟨"bad.hexpat", true, false, [['t']]⟩
    [⟨"good.hexpat", true, true, [['u']]⟩] (Or.inr rfl)

/-- C10: when the pattern file cannot be opened (`fopen` returns null),
`loadPatternFile` is a no-op: the whole editor state — text, pattern tree,
console, error markers, run flags — is returned unchanged and no evaluation is
scheduled. -/
theorem load_pattern_file_noop_on_open_failure (s : EditorState) :
    loadPatternFile none s = s := rfl

/-- C8: the lexical classifier first skips leading blank characters, then
tests categories in order with first match winning: end of input yields
`Default` with a zero-length span (the whole input was blanks); a C-style
identifier yields `Keyword` when in the fixed keyword set, `BuiltinType` with
attached description "Built-in type" when in the fixed built-in-type set, and
`Identifier` otherwise; then C-style number, character literal and string
literal; when none match, classification fails for that position. -/
theorem lexical_classifier_order (num chrTok strTok : SubTok) (input : List Char) :
    (input.dropWhile isBlankAscii = [] →
      classifyToken num chrTok strTok input =
        some (input.length, [], PaletteIndex.Default, none)) ∧
    (∀ tok rem, tokenizeCStyleIdentifier (input.dropWhile isBlankAscii) = some (tok, rem) →
      classifyToken num chrTok strTok input =
        some ((input.takeWhile isBlankAscii).length, tok,
          (if String.mk tok ∈ keywords then PaletteIndex.Keyword
           else if String.mk tok ∈ builtInTypes then PaletteIndex.BuiltinType
           else PaletteIndex.Identifier),
          (if String.mk tok ∈ keywords then none
           else if String.mk tok ∈ builtInTypes then some "Built-in type"
           else none))) ∧
    (∀ tok rem, input.dropWhile isBlankAscii ≠ [] →
      tokenizeCStyleIdentifier (input.dropWhile isBlankAscii) = none →
      num (input.dropWhile isBlankAscii) = some (tok, rem) →
      classifyToken num chrTok strTok input =
        some ((input.takeWhile isBlankAscii).length, tok, PaletteIndex.Number, none)) ∧
    (∀ tok rem, input.dropWhile isBlankAscii ≠ [] →
      tokenizeCStyleIdentifier (input.dropWhile isBlankAscii) = none →
      num (input.dropWhile isBlankAscii) = none →
      chrTok (input.dropWhile isBlankAscii) = some (tok, rem) →
      classifyToken num chrTok strTok input =
        some ((input.takeWhile isBlankAscii).length, tok, PaletteIndex.CharLiteral, none)) ∧
    (∀ tok rem, input.dropWhile isBlankAscii ≠ [] →
      tokenizeCStyleIdentifier (input.dropWhile isBlankAscii) = none →
      num (input.dropWhile isBlankAscii) = none →
      chrTok (input.dropWhile isBlankAscii) = none →
      strTok (input.dropWhile isBlankAscii) = some (tok, rem) →
      classifyToken num chrTok strTok input =
        some ((input.takeWhile isBlankAscii).length, tok, PaletteIndex.String, none)) ∧
    (input.dropWhile isBlankAscii ≠ [] →
      tokenizeCStyleIdentifier (input.dropWhile isBlankAscii) = none →
      num (input.dropWhile isBlankAscii) = none →
      chrTok (input.dropWhile isBlankAscii) = none →
      strTok (input.dropWhile isBlankAscii) = none →
      classifyToken num chrTok strTok input = none) := by
  refine ⟨?_, ?_, ?_, ?_, ?_, ?_⟩
  · intro h
    have hlen : (input.takeWhile isBlankAscii).length = input.length := by
      conv_rhs => rw [← List.takeWhile_append_dropWhile (p := isBlankAscii) (l := input)]
      rw [h, List.append_nil]
    simp [classifyToken, mTokenize, h, hlen]
  · intro tok rem hid
    cases hrest : input.dropWhile isBlankAscii with
    | nil => rw [hrest] at hid; simp [tokenizeCStyleIdentifier] at hid
    | cons c cs =>
      rw [hrest] at hid
      by_cases hk : String.mk tok ∈ keywords <;>
        by_cases hb : String.mk tok ∈ builtInTypes <;>
          simp [classifyToken, mTokenize, hrest, hid, hk, hb, builtInTypeTable_lookup]
  · intro tok rem hne hid hnum
    cases hrest : input.dropWhile isBlankAscii with
    | nil => exact absurd hrest hne
    | cons c cs =>
      rw [hrest] at hid hnum
      simp [classifyToken, mTokenize, hrest, hid, hnum]
  · intro tok rem hne hid hnum hchr
    cases hrest : input.dropWhile isBlankAscii with
    | nil => exact absurd hrest hne
    | cons c cs =>
      rw [hrest] at hid hnum hchr
      simp [classifyToken, mTokenize, hrest, hid, hnum, hchr]
  · intro tok rem hne hid hnum hchr hstr
    cases hrest : input.dropWhile isBlankAscii with
    | nil => exact absurd hrest hne
    | cons c cs =>
      rw [hrest] at hid hnum hchr hstr
      simp [classifyToken, mTokenize, hrest, hid, hnum, hchr, hstr]
  · intro hne hid hnum hchr hstr
    cases hrest : input.dropWhile isBlankAscii with
    | nil => exact absurd hrest hne
    | cons c cs =>
      rw [hrest] at hid hnum hchr hstr
      simp [classifyToken, mTokenize, hrest, hid, hnum, hchr, hstr]

/-- C8 witness: with sub-tokenizers that never match, the input consisting of
one blank and the word "struct" is classified as the keyword `struct` at
offset 1. -/
theorem lexical_classifier_order_witness :
    classifyToken (fun _ => none) (fun _ => none) (fun _ => none) (' ' :: "struct".toList) =
      some (1, "struct".toList, PaletteIndex.Keyword, none) := by
  have h := (lexical_classifier_order (fun _ => none) (fun _ => none) (fun _ => none)
      (' ' :: "struct".toList)).2.1 "struct".toList [] (by decide)
  rw [h]; decide

/-- `parsePattern` as the calling thread returns: running is set, stores are
cleared, the notification is appended, one more run is live and scheduled,
and everything else is untouched. -/
theorem parsePattern_fields (b : String) (s : EditorState) :
    (parsePattern b s).running = true ∧
    (parsePattern b s).activeRuns = s.activeRuns + 1 ∧
    (parsePattern b s).scheduled = s.scheduled + 1 ∧
    (parsePattern b s).patternData = [] ∧
    (parsePattern b s).errorMarkers = [] ∧
    (parsePattern b s).console = [] ∧
    (parsePattern b s).events = s.events ++ [UIEvent.patternChanged] ∧
    (parsePattern b s).hasUnevaluatedChanges = s.hasUnevaluatedChanges ∧
    (parsePattern b s).runAutomatically = s.runAutomatically ∧
    (parsePattern b s).dirty = s.dirty ∧
    (parsePattern b s).text = s.text :=
  ⟨rfl, rfl, rfl, rfl, rfl, rfl, rfl, rfl, rfl, rfl, rfl⟩

/-- The full background body, fieldwise: results stored, `running` false,
thread bookkeeping untouched (for arbitrary interpreter outcome). -/
theorem bgRun_fields (res : ExecResult) (s : EditorState) :
    (runAll (bgInstrs res) s).running = false ∧
    (runAll (bgInstrs res) s).activeRuns = s.activeRuns ∧
    (runAll (bgInstrs res) s).scheduled = s.scheduled ∧
    (runAll (bgInstrs res) s).hasUnevaluatedChanges = s.hasUnevaluatedChanges ∧
    (runAll (bgInstrs res) s).runAutomatically = s.runAutomatically ∧
    (runAll (bgInstrs res) s).dirty = s.dirty ∧
    (runAll (bgInstrs res) s).text = s.text ∧
    (runAll (bgInstrs res) s).console = res.log := by
  obtain ⟨r, er, lg⟩ := res
  cases er <;> cases r <;> exact ⟨rfl, rfl, rfl, rfl, rfl, rfl, rfl, rfl⟩

/-- `bgComplete`, fieldwise. -/
theorem bgComplete_fields (res : ExecResult) (s : EditorState) :
    (bgComplete res s).running = false ∧
    (bgComplete res s).activeRuns = s.activeRuns - 1 ∧
    (bgComplete res s).scheduled = s.scheduled ∧
    (bgComplete res s).hasUnevaluatedChanges = s.hasUnevaluatedChanges ∧
    (bgComplete res s).runAutomatically = s.runAutomatically ∧
    (bgComplete res s).dirty = s.dirty ∧
    (bgComplete res s).text = s.text := by
  obtain ⟨r, er, lg⟩ := res
  cases er <;> cases r <;> exact ⟨rfl, rfl, rfl, rfl, rfl, rfl, rfl⟩

/-- C5: for every interpreter outcome and every interleaving point of the
background body, if an observer sees `running == false` then the whole of that
run's result data is already stored: the console log, the error marker when
the run produced an error, and the pattern tree when the run produced one.
(`running := false` is the body's last instruction.) -/
theorem results_published_before_running_false (res : ExecResult) (s : EditorState)
    (n : Nat) (hrun : s.running = true)
    (hdone : (execSteps (bgInstrs res) n s).running = false) :
    (execSteps (bgInstrs res) n s).console = res.log ∧
    (∀ e, res.error = some e → (execSteps (bgInstrs res) n s).errorMarkers = [e]) ∧
    (∀ t, res.result = some t → (execSteps (bgInstrs res) n s).patternData = t) := by
  obtain ⟨r, er, lg⟩ := res
  match n with
  | 0 =>
    cases er <;> cases r <;> simp [execSteps, runAll] at hdone <;> simp [hrun] at hdone
  | 1 =>
    cases er <;> cases r <;> simp [execSteps, runAll, bgInstrs] at hdone <;> simp [hrun] at hdone
  | 2 =>
    cases er <;> cases r <;> simp [execSteps, runAll, bgInstrs] at hdone <;> simp [hrun] at hdone
  | 3 =>
    cases er <;> cases r <;> simp [execSteps, runAll, bgInstrs] at hdone <;> simp [hrun] at hdone
  | k + 4 =>
    simp only [execSteps] at hdone ⊢
    rw [List.take_of_length_le (by simp [bgInstrs])] at hdone ⊢
    refine ⟨?_, ?_, ?_⟩
    · cases er <;> cases r <;> rfl
    · intro e he
      cases er with
      | none => exact absurd he (by simp)
      | some ev =>
        obtain rfl : ev = e := Option.some.inj he
        cases r <;> rfl
    · intro t ht
      cases r with
      | none => exact absurd ht (by simp)
      | some tv =>
        obtain rfl : tv = t := Option.some.inj ht
        cases er <;> rfl

/-- C5 witness: at the end of the body (interleaving point 4) of a run that
produced a tree, an error and a log entry, all three are stored. -/
theorem results_published_before_running_false_witness :
    (execSteps (bgInstrs ⟨some [7], some (3, "err"), [(LogLevel.Error, "msg")]⟩) 4
        { initState with running := true }).console = [(LogLevel.Error, "msg")] ∧
    (execSteps (bgInstrs ⟨some [7], some (3, "err"), [(LogLevel.Error, "msg")]⟩) 4
        { initState with running := true }).errorMarkers = [(3, "err")] ∧
    (execSteps (bgInstrs ⟨some [7], some (3, "err"), [(LogLevel.Error, "msg")]⟩) 4
        { initState with running := true }).patternData = [7] :=
  ⟨(results_published_before_running_false _ _ 4 rfl rfl).1,
   (results_published_before_running_false _ _ 4 rfl rfl).2.1 _ rfl,
   (results_published_before_running_false _ _ 4 rfl rfl).2.2 _ rfl⟩

/-- C6: scheduling an evaluation happens synchronously on the calling thread,
in source order: `running` is set true by the first instruction and stays true
through the whole synchronous prefix; the stored tree, error markers and
console are all cleared by instruction 4; the pattern-changed notification is
published by instruction 5 and not before; and `parsePattern` is exactly this
synchronous prefix followed by spawning the background unit, so in the state
handed to the background unit — before its first observable side effect — the
Result Store's tree and the diagnostics are empty, the console is empty,
`running` is true and the notification has been posted. -/
theorem schedule_clears_before_background (b : String) (s : EditorState) :
    (∀ k, 1 ≤ k → (execSteps parseSyncInstrs k s).running = true) ∧
    ((execSteps parseSyncInstrs 4 s).patternData = [] ∧
     (execSteps parseSyncInstrs 4 s).errorMarkers = [] ∧
     (execSteps parseSyncInstrs 4 s).console = []) ∧
    (∀ k, k ≤ 4 → (execSteps parseSyncInstrs k s).events = s.events) ∧
    (execSteps parseSyncInstrs 5 s).events = s.events ++ [UIEvent.patternChanged] ∧
    parsePattern b s = spawnThread b (execSteps parseSyncInstrs 5 s) ∧
    (parsePattern b s).running = true ∧
    (parsePattern b s).patternData = [] ∧
    (parsePattern b s).errorMarkers = [] ∧
    (parsePattern b s).console = [] ∧
    (parsePattern b s).events = s.events ++ [UIEvent.patternChanged] := by
  refine ⟨?_, ⟨rfl, rfl, rfl⟩, ?_, rfl, rfl, rfl, rfl, rfl, rfl, rfl⟩
  · intro k hk
    match k with
    | 1 => rfl
    | 2 => rfl
    | 3 => rfl
    | 4 => rfl
    | j + 5 =>
      show (execSteps parseSyncInstrs (j + 5) s).running = true
      unfold execSteps
      rw [List.take_of_length_le (by simp [parseSyncInstrs])]
      rfl
  · intro k hk
    match k with
    | 0 => rfl
    | 1 => rfl
    | 2 => rfl
    | 3 => rfl
    | 4 => rfl

/-- C6 witness: concrete instances of the interleaving-point statements at the
initial state. -/
theorem schedule_clears_before_background_witness :
    (execSteps parseSyncInstrs 1 initState).running = true ∧
    (execSteps parseSyncInstrs 0 initState).events = initState.events ∧
    (parsePattern "x" initState).patternData = [] :=
  ⟨(schedule_clears_before_background "x" initState).1 1 (by decide),
   (schedule_clears_before_background "x" initState).2.2.1 0 (by decide),
   (schedule_clears_before_background "x" initState).2.2.2.2.2.2.1⟩

/-- The evaluate button does nothing while an evaluation is running
(it is wrapped in `ImGui::Disabled`). -/
theorem tickButton_of_running (b : Bool) (s : EditorState) (h : s.running = true) :
    tickButton b s = s := by
  simp [tickButton, h]

/-- The checkbox is not drawn while an evaluation is running. -/
theorem tickCheckbox_of_running (a : Option Bool) (s : EditorState) (h : s.running = true) :
    tickCheckbox a s = s := by
  simp [tickCheckbox, h]

/-- The checkbox never touches the run state. -/
theorem tickCheckbox_fields (a : Option Bool) (s : EditorState) :
    (tickCheckbox a s).running = s.running ∧
    (tickCheckbox a s).activeRuns = s.activeRuns ∧
    (tickCheckbox a s).scheduled = s.scheduled ∧
    (tickCheckbox a s).text = s.text := by
  unfold tickCheckbox
  split
  · exact ⟨rfl, rfl, rfl, rfl⟩
  · cases a with
    | none => exact ⟨rfl, rfl, rfl, rfl⟩
    | some bb => cases bb <;> exact ⟨rfl, rfl, rfl, rfl⟩

/-- The checkbox never clears a pending-changes flag. -/
theorem tickCheckbox_flag (a : Option Bool) (s : EditorState)
    (h : s.hasUnevaluatedChanges = true) :
    (tickCheckbox a s).hasUnevaluatedChanges = true := by
  unfold tickCheckbox
  split
  · exact h
  · cases a with
    | none => exact h
    | some bb => cases bb <;> simp [h]

/-- The text-changed check never touches the run state. -/
theorem tickTextChanged_fields (t : Bool) (s : EditorState) :
    (tickTextChanged t s).running = s.running ∧
    (tickTextChanged t s).activeRuns = s.activeRuns ∧
    (tickTextChanged t s).scheduled = s.scheduled ∧
    (tickTextChanged t s).text = s.text := by
  unfold tickTextChanged
  split <;> exact ⟨rfl, rfl, rfl, rfl⟩

/-- The text-changed check never clears a pending-changes flag. -/
theorem tickTextChanged_flag (t : Bool) (s : EditorState)
    (h : s.hasUnevaluatedChanges = true) :
    (tickTextChanged t s).hasUnevaluatedChanges = true := by
  unfold tickTextChanged
  split <;> simp [h]

/-- A text change with auto-run enabled marks the changes pending. -/
theorem tickTextChanged_sets (s : EditorState) (h : s.runAutomatically = true) :
    tickTextChanged true s = { s with hasUnevaluatedChanges := true } := by
  simp [tickTextChanged, h]

/-- The auto-evaluation check does nothing while an evaluation is running. -/
theorem tickAutoEval_of_running (s : EditorState) (h : s.running = true) :
    tickAutoEval s = s := by
  simp [tickAutoEval, h]

/-- With changes pending and nothing running, the auto-evaluation check
clears the flag, marks the project dirty and schedules one evaluation. -/
theorem tickAutoEval_fires (s : EditorState) (h1 : s.hasUnevaluatedChanges = true)
    (h2 : s.running = false) :
    tickAutoEval s =
      parsePattern s.text { s with hasUnevaluatedChanges := false, dirty := true } := by
  simp [tickAutoEval, h1, h2]

/-- A frame arriving while an evaluation is running changes neither the run
state nor the schedule count. -/
theorem drawContentTick_of_running (p : Bool) (a : Option Bool) (b t : Bool)
    (s : EditorState) (h : s.running = true) :
    (drawContentTick p a b t s).running = true ∧
    (drawContentTick p a b t s).activeRuns = s.activeRuns ∧
    (drawContentTick p a b t s).scheduled = s.scheduled := by
  cases p with
  | false => exact ⟨h, rfl, rfl⟩
  | true =>
    show (tickAutoEval (tickTextChanged t (tickCheckbox a (tickButton b s)))).running = true ∧
      (tickAutoEval (tickTextChanged t (tickCheckbox a (tickButton b s)))).activeRuns =
        s.activeRuns ∧
      (tickAutoEval (tickTextChanged t (tickCheckbox a (tickButton b s)))).scheduled =
        s.scheduled
    rw [tickButton_of_running b s h, tickCheckbox_of_running a s h]
    have h3 : (tickTextChanged t s).running = true := (tickTextChanged_fields t s).1.trans h
    rw [tickAutoEval_of_running _ h3]
    exact ⟨h3, (tickTextChanged_fields t s).2.1, (tickTextChanged_fields t s).2.2.1⟩

/-- A text-change frame arriving with auto-run enabled while an evaluation is
running marks the changes pending. -/
theorem tick_edit_flag (a : Option Bool) (b : Bool) (s : EditorState)
    (ha : s.runAutomatically = true) (hr : s.running = true) :
    (drawContentTick true a b true s).hasUnevaluatedChanges = true := by
  show (tickAutoEval (tickTextChanged true (tickCheckbox a (tickButton b s)))).hasUnevaluatedChanges = true
  rw [tickButton_of_running b s hr, tickCheckbox_of_running a s hr,
    tickTextChanged_sets s ha,
    tickAutoEval_of_running { s with hasUnevaluatedChanges := true } hr]

/-- A frame arriving with changes pending and nothing running (no button
press) clears the flag, marks the project dirty and schedules exactly one
evaluation. -/
theorem tick_consume_flag (a : Option Bool) (t : Bool) (s : EditorState)
    (hflag : s.hasUnevaluatedChanges = true) (hrun : s.running = false) :
    (drawContentTick true a false t s).hasUnevaluatedChanges = false ∧
    (drawContentTick true a false t s).dirty = true ∧
    (drawContentTick true a false t s).scheduled = s.scheduled + 1 := by
  show (tickAutoEval (tickTextChanged t (tickCheckbox a s))).hasUnevaluatedChanges = false ∧
    (tickAutoEval (tickTextChanged t (tickCheckbox a s))).dirty = true ∧
    (tickAutoEval (tickTextChanged t (tickCheckbox a s))).scheduled = s.scheduled + 1
  have h2r : (tickCheckbox a s).running = false := (tickCheckbox_fields a s).1.trans hrun
  have h2f : (tickCheckbox a s).hasUnevaluatedChanges = true := tickCheckbox_flag a s hflag
  have h3r : (tickTextChanged t (tickCheckbox a s)).running = false :=
    (tickTextChanged_fields t _).1.trans h2r
  have h3f : (tickTextChanged t (tickCheckbox a s)).hasUnevaluatedChanges = true :=
    tickTextChanged_flag t _ h2f
  rw [tickAutoEval_fires _ h3f h3r]
  refine ⟨rfl, rfl, ?_⟩
  show (tickTextChanged t (tickCheckbox a s)).scheduled + 1 = s.scheduled + 1
  rw [(tickTextChanged_fields t _).2.2.1, (tickCheckbox_fields a s).2.2.1]

/-- Repeated text-change frames while an evaluation runs only set the
pending-changes flag once. -/
theorem iterTick_edit (n : Nat) (s : EditorState) (hr : s.running = true)
    (ha : s.runAutomatically = true) :
    iterTick (n + 1) s = { s with hasUnevaluatedChanges := true } := by
  induction n generalizing s with
  | zero =>
    show tickAutoEval (tickTextChanged true (tickCheckbox none s)) =
      { s with hasUnevaluatedChanges := true }
    rw [tickCheckbox_of_running none s hr, tickTextChanged_sets s ha,
      tickAutoEval_of_running { s with hasUnevaluatedChanges := true } hr]
  | succ n ih =>
    have he : drawContentTick true none false true s =
        { s with hasUnevaluatedChanges := true } := by
      show tickAutoEval (tickTextChanged true (tickCheckbox none s)) =
        { s with hasUnevaluatedChanges := true }
      rw [tickCheckbox_of_running none s hr, tickTextChanged_sets s ha,
        tickAutoEval_of_running { s with hasUnevaluatedChanges := true } hr]
    show iterTick (n + 1) (drawContentTick true none false true s) =
      { s with hasUnevaluatedChanges := true }
    rw [he, ih { s with hasUnevaluatedChanges := true } hr ha]

/-- C7: with auto-run enabled, a text change arriving in a frame while an
evaluation runs sets `hasUnevaluatedChanges` without scheduling anything; on
the next frame with the flag set and nothing running (and no button press),
the flag is cleared, the project is marked dirty, and exactly one new
evaluation is scheduled; and any number of consecutive edit frames during one
long run collapse into exactly one follow-up run after that run completes. -/
theorem autorun_coalesces_edits :
    (∀ (a : Option Bool) (b : Bool) (s : EditorState),
      s.runAutomatically = true → s.running = true →
      (drawContentTick true a b true s).hasUnevaluatedChanges = true ∧
      (drawContentTick true a b true s).scheduled = s.scheduled) ∧
    (∀ (a : Option Bool) (t : Bool) (s : EditorState),
      s.hasUnevaluatedChanges = true → s.running = false →
      (drawContentTick true a false t s).hasUnevaluatedChanges = false ∧
      (drawContentTick true a false t s).dirty = true ∧
      (drawContentTick true a false t s).scheduled = s.scheduled + 1) ∧
    (∀ (n : Nat) (s : EditorState) (res : ExecResult),
      s.runAutomatically = true → s.running = true →
      (iterTick (n + 1) s).hasUnevaluatedChanges = true ∧
      (iterTick (n + 1) s).scheduled = s.scheduled ∧
      (drawContentTick true none false false
          (bgComplete res (iterTick (n + 1) s))).hasUnevaluatedChanges = false ∧
      (drawContentTick true none false false
          (bgComplete res (iterTick (n + 1) s))).dirty = true ∧
      (drawContentTick true none false false
          (bgComplete res (iterTick (n + 1) s))).scheduled = s.scheduled + 1) := by
  refine ⟨?_, ?_, ?_⟩
  · intro a b s ha hr
    exact ⟨tick_edit_flag a b s ha hr, (drawContentTick_of_running true a b true s hr).2.2⟩
  · intro a t s hflag hrun
    exact tick_consume_flag a t s hflag hrun
  · intro n s res ha hr
    rw [iterTick_edit n s hr ha]
    have hCf : (bgComplete res { s with hasUnevaluatedChanges := true }).hasUnevaluatedChanges =
        true :=
      (bgComplete_fields res { s with hasUnevaluatedChanges := true }).2.2.2.1
    have hCr : (bgComplete res { s with hasUnevaluatedChanges := true }).running = false :=
      (bgComplete_fields res { s with hasUnevaluatedChanges := true }).1
    have hCs : (bgComplete res { s with hasUnevaluatedChanges := true }).scheduled =
        s.scheduled :=
      (bgComplete_fields res { s with hasUnevaluatedChanges := true }).2.2.1
    have hc := tick_consume_flag none false (bgComplete res { s with hasUnevaluatedChanges := true })
      hCf hCr
    exact ⟨rfl, rfl, hc.1, hc.2.1, by rw [hc.2.2, hCs]⟩

/-- C7 witness: one edit frame during a running evaluation, then completion,
then one plain frame: the flag is set during the run, nothing is scheduled
during the run, and exactly one follow-up evaluation is scheduled after. -/
theorem autorun_coalesces_edits_witness :
    (iterTick 1 runningAutoState).hasUnevaluatedChanges = true ∧
    (iterTick 1 runningAutoState).scheduled = 0 ∧
    (drawContentTick true none false false
        (bgComplete emptyResult (iterTick 1 runningAutoState))).hasUnevaluatedChanges = false ∧
    (drawContentTick true none false false
        (bgComplete emptyResult (iterTick 1 runningAutoState))).dirty = true ∧
    (drawContentTick true none false false
        (bgComplete emptyResult (iterTick 1 runningAutoState))).scheduled = 1 :=
  autorun_coalesces_edits.2.2 0 runningAutoState emptyResult rfl rfl

/-- `RunInv` only depends on the run state. -/
theorem runInv_of_fields (s s' : EditorState) (hr : s'.running = s.running)
    (ha : s'.activeRuns = s.activeRuns) (h : RunInv s) : RunInv s' := by
  rcases h with ⟨h1, h2⟩ | ⟨h1, h2⟩
  · exact Or.inl ⟨hr.trans h1, ha.trans h2⟩
  · exact Or.inr ⟨hr.trans h1, ha.trans h2⟩

/-- The evaluate button preserves the exclusion invariant: it only fires when
nothing is running, and then starts exactly one run. -/
theorem tickButton_runInv (b : Bool) (s : EditorState) (h : RunInv s) :
    RunInv (tickButton b s) := by
  unfold tickButton
  by_cases hc : (b && !s.running) = true
  · rw [if_pos hc]
    have hb : s.running = false := by
      cases hr2 : s.running
      · rfl
      · rw [hr2] at hc; simp at hc
    rcases h with ⟨h1, -⟩ | ⟨-, h2⟩
    · rw [h1] at hb; cases hb
    · exact Or.inl ⟨(parsePattern_fields s.text s).1,
        by rw [(parsePattern_fields s.text s).2.1, h2]⟩
  · rw [if_neg hc]; exact h

/-- The auto-evaluation check preserves the exclusion invariant: it only fires
when nothing is running, and then starts exactly one run. -/
theorem tickAutoEval_runInv (s : EditorState) (h : RunInv s) :
    RunInv (tickAutoEval s) := by
  unfold tickAutoEval
  by_cases hc : (s.hasUnevaluatedChanges && !s.running) = true
  · rw [if_pos hc]
    have hb : s.running = false := by
      cases hr2 : s.running
      · rfl
      · rw [hr2] at hc; simp at hc
    rcases h with ⟨h1, -⟩ | ⟨-, h2⟩
    · rw [h1] at hb; cases hb
    · exact Or.inl ⟨(parsePattern_fields _ _).1, by rw [(parsePattern_fields _ _).2.1]; simpa⟩
  · rw [if_neg hc]; exact h

/-- A whole frame preserves the exclusion invariant. -/
theorem drawContentTick_runInv (p : Bool) (a : Option Bool) (b t : Bool)
    (s : EditorState) (h : RunInv s) : RunInv (drawContentTick p a b t s) := by
  cases p with
  | false => exact h
  | true =>
    show RunInv (tickAutoEval (tickTextChanged t (tickCheckbox a (tickButton b s))))
    exact tickAutoEval_runInv _
      (runInv_of_fields _ _ (tickTextChanged_fields t _).1 (tickTextChanged_fields t _).2.1
        (runInv_of_fields _ _ (tickCheckbox_fields a _).1 (tickCheckbox_fields a _).2.1
          (tickButton_runInv b s h)))

/-- Frame and completion requests preserve the exclusion invariant. -/
theorem step_runInv (s : EditorState) (r : Request) (hfc : frameOrComplete r = true)
    (h : RunInv s) : RunInv (step s r) := by
  cases r with
  | frame p a b t => exact drawContentTick_runInv p a b t s h
  | projectLoad text => simp [frameOrComplete] at hfc
  | patternFileLoad file => simp [frameOrComplete] at hfc
  | complete res =>
    show RunInv (if s.activeRuns = 0 then s else bgComplete res s)
    by_cases h0 : s.activeRuns = 0
    · rw [if_pos h0]; exact h
    · rw [if_neg h0]
      rcases h with ⟨-, h2⟩ | ⟨-, h2⟩
      · exact Or.inr ⟨(bgComplete_fields res s).1, by rw [(bgComplete_fields res s).2.1, h2]⟩
      · exact absurd h2 h0

/-- Any sequence of frame and completion requests preserves the exclusion
invariant. -/
theorem runRequests_runInv (reqs : List Request) (s : EditorState)
    (hall : ∀ r ∈ reqs, frameOrComplete r = true) (h : RunInv s) :
    RunInv (runRequests reqs s) := by
  induction reqs generalizing s with
  | nil => exact h
  | cons r rest ih =>
    exact ih (step s r) (fun x hx => hall x (List.mem_cons_of_mem r hx))
      (step_runInv s r (hall r (List.mem_cons_self r rest)) h)

/-- C1 counterexample: the claim quantifies over button triggers, auto-run
ticks, project-file loads and pattern-file loads and asserts at most one
evaluation is ever running. Two consecutive project-file loads (the handler
at source lines 94-97 calls `parsePattern` with no guard) leave two
background evaluations running at once. The same holds for
`loadPatternFile`. -/
theorem evaluation_mutual_exclusion_refuted :
    ¬ (∀ reqs : List Request, (runRequests reqs initState).activeRuns ≤ 1) := fun h =>
  absurd (h [Request.projectLoad "a", Request.projectLoad "b"]) (by decide)

/-- C1 amended: requests from the interactive frame — the button trigger
(disabled while running) and the auto-run tick (guarded by `running`) — never
start a second concurrent run: a frame arriving while `running` is true leaves
the number of live runs unchanged; and starting from the idle state, any
sequence of frame and completion requests keeps at most one evaluation
running. Project-file loads and pattern-file loads, however, schedule
unconditionally and are not covered by the exclusion. -/
theorem evaluation_mutual_exclusion_amended :
    (∀ (p : Bool) (a : Option Bool) (b t : Bool) (s : EditorState), s.running = true →
      (drawContentTick p a b t s).activeRuns = s.activeRuns ∧
      (drawContentTick p a b t s).running = true) ∧
    (∀ reqs : List Request, (∀ r ∈ reqs, frameOrComplete r = true) →
      (runRequests reqs initState).activeRuns ≤ 1) := by
  constructor
  · intro p a b t s h
    exact ⟨(drawContentTick_of_running p a b t s h).2.1,
      (drawContentTick_of_running p a b t s h).1⟩
  · intro reqs hall
    rcases runRequests_runInv reqs initState hall (Or.inr ⟨rfl, rfl⟩) with ⟨-, h2⟩ | ⟨-, h2⟩ <;>
      simp [h2]

/-- C1 amended, witness: a frame with a button press while a run is live
changes nothing, and a button-press frame followed by a completion keeps the
run count at most one. -/
theorem evaluation_mutual_exclusion_amended_witness :
    ((drawContentTick true none true true runningAutoState).activeRuns = 1 ∧
     (drawContentTick true none true true runningAutoState).running = true) ∧
    (runRequests [Request.frame true none true false, Request.complete emptyResult]
        initState).activeRuns ≤ 1 :=
  ⟨evaluation_mutual_exclusion_amended.1 true none true true runningAutoState rfl,
   evaluation_mutual_exclusion_amended.2
     [Request.frame true none true false, Request.complete emptyResult] (by decide)⟩
